import Mathlib

/-!
Shallow embedding of the goal-programming solver in `src/app.py`.

The program builds a PuLP linear program from a goal-programming problem
description (`solve_goal_programming`, lines 11-48), delegates the solve to
an external LP solver (`prob.solve()`, line 40), packages the results, and
a Streamlit button handler (lines 185-224) renders them, classifying each
goal (lines 204-211).

Reals are modelled as `ℚ`.  Python exceptions (`IndexError` from
out-of-range list accesses, `KeyError` from out-of-range dictionary keys,
and any exception raised by the external solver) are modelled with
`Except PyExc`.  The external LP solver is modelled as an oracle
`LinearProgram → Except PyExc SolverResult` supplied as a parameter.
-/

namespace GP

/-- A Python exception escaping the embedded code: `IndexError` from a list
access out of range, `KeyError` from a missing dictionary key, or an
exception raised inside the external LP solver during `prob.solve()`. -/
inductive PyExc where
  | indexError
  | keyError
  | solverError (msg : String)
deriving DecidableEq, Repr

/-- An LP variable of the model built by `solve_goal_programming`:
`x j` is the decision variable `x_j`, `dMinus i` / `dPlus i` are the
deviation variables `d_i^-` / `d_i^+` of goal `i` (1-based indices, as in
the source's `range(1, n + 1)` loops). -/
inductive Var where
  | x (j : Nat)
  | dMinus (i : Nat)
  | dPlus (i : Nat)
deriving DecidableEq, Repr

/-- A declared LP variable with its bound and category, as created by
`pulp.LpVariable.dicts(..., lowBound=0, cat='Continuous')` (lines 17-19). -/
structure VarDecl where
  var : Var
  lowBound : ℚ
  cat : String
deriving DecidableEq, Repr

/-- Relational operator of an LP constraint. -/
inductive Rel where
  | le
  | ge
  | eq
deriving DecidableEq, Repr

/-- An LP constraint: a named linear expression (list of variable/coefficient
terms, in the order PuLP receives them) compared to a right-hand side. -/
structure Constraint where
  name : String
  terms : List (Var × ℚ)
  rel : Rel
  rhs : ℚ
deriving DecidableEq, Repr

/-- The canonical LP built by `solve_goal_programming`: minimisation problem
`ProgramacionPorMetas` with declared variables (in creation order),
objective terms and constraints (in the order they are added). -/
structure LinearProgram where
  name : String
  vars : List VarDecl
  objective : List (Var × ℚ)
  constraints : List Constraint
deriving DecidableEq, Repr

/-- A goal dictionary `{'name': ..., 'coeffs': ..., 'rhs': ...}` as passed
to `solve_goal_programming`. -/
structure Goal where
  name : String
  coeffs : List ℚ
  rhs : ℚ
deriving DecidableEq, Repr

/-- A hard-constraint dictionary
`{'name': ..., 'coeffs': ..., 'type': ..., 'rhs': ...}`; `type` is the
relational operator string selected in the UI (`"<="`, `">="` or `"=="`). -/
structure HardConstraint where
  name : String
  coeffs : List ℚ
  type : String
  rhs : ℚ
deriving DecidableEq, Repr

/-- A per-goal weight dictionary `{'minus': w⁻, 'plus': w⁺}`. -/
structure Weight where
  minus : ℚ
  plus : ℚ
deriving DecidableEq, Repr

/-- The terms of `pulp.lpSum(coeffs[j-1] * x[j] for j in range(1, num_vars + 1))`
(lines 28 and 32).  Accessing `coeffs[j-1]` is within range for every
`j ≤ num_vars` exactly when `num_vars ≤ coeffs.length`. -/
def xTerms (num_vars : Nat) (coeffs : List ℚ) : List (Var × ℚ) :=
  (List.range' 1 num_vars).map (fun j => (Var.x j, coeffs.getD (j - 1) 0))

/-- The goal-equality constraint added for goal `i` (line 29):
`expression + d_minus[i] - d_plus[i] == goal['rhs']`, named
`Meta_{goal['name']}`. -/
def goalConOf (num_vars : Nat) (i : Nat) (g : Goal) : Constraint :=
  ⟨"Meta_" ++ g.name,
   xTerms num_vars g.coeffs ++ [(Var.dMinus i, 1), (Var.dPlus i, -1)],
   Rel.eq, g.rhs⟩

/-- The hard constraint added for `constraint` (lines 33-38): the operator
string `"<="` gives `<=`, `">="` gives `>=`, and any other string falls into
the `else` branch and gives an equality.  Named `Restriccion_{name}`. -/
def hardConOf (num_vars : Nat) (c : HardConstraint) : Constraint :=
  ⟨"Restriccion_" ++ c.name,
   xTerms num_vars c.coeffs,
   if c.type = "<=" then Rel.le else if c.type = ">=" then Rel.ge else Rel.eq,
   c.rhs⟩

/-- Building goal `i`'s equality (lines 28-29) with Python's failure modes:
`goal['coeffs'][j-1]` raises `IndexError` when the coefficient vector is
shorter than `num_vars`; `d_minus[i]` raises `KeyError` when `i` is not a
key of the deviation dictionaries, whose keys are `1 .. num_goals`. -/
def goalConstraint (num_vars num_goals : Nat) (i : Nat) (g : Goal) :
    Except PyExc Constraint :=
  if num_vars ≤ g.coeffs.length then
    if i ≤ num_goals then .ok (goalConOf num_vars i g)
    else .error .keyError
  else .error .indexError

/-- The goal loop `for i, goal in enumerate(goals, 1)` (lines 27-29),
accumulating the goal equalities in input order starting at index `i`. -/
def goalConstraints (num_vars num_goals : Nat) :
    Nat → List Goal → Except PyExc (List Constraint)
  | _, [] => .ok []
  | i, g :: gs => do
    let c ← goalConstraint num_vars num_goals i g
    let rest ← goalConstraints num_vars num_goals (i + 1) gs
    .ok (c :: rest)

/-- The pure shape of the goal-constraint list: one equality per goal, in
input order, goal at offset `k` using deviation index `i + k`. -/
def goalConsOf (num_vars : Nat) : Nat → List Goal → List Constraint
  | _, [] => []
  | i, g :: gs => goalConOf num_vars i g :: goalConsOf num_vars (i + 1) gs

/-- Building one hard constraint (lines 32-38): `constraint['coeffs'][j-1]`
raises `IndexError` when the coefficient vector is shorter than
`num_vars`; the operator dispatch itself never fails. -/
def hardConstraint (num_vars : Nat) (c : HardConstraint) :
    Except PyExc Constraint :=
  if num_vars ≤ c.coeffs.length then .ok (hardConOf num_vars c)
  else .error .indexError

/-- The hard-constraint loop `for i, constraint in enumerate(constraints, 1)`
(lines 31-38), in input order. -/
def hardConstraints (num_vars : Nat) :
    List HardConstraint → Except PyExc (List Constraint)
  | [] => .ok []
  | c :: cs => do
    let c' ← hardConstraint num_vars c
    let rest ← hardConstraints num_vars cs
    .ok (c' :: rest)

/-- The objective terms (lines 21-24): for each `i` in `1 .. num_goals`,
`obj_weights[i-1]['minus'] * d_minus[i] + obj_weights[i-1]['plus'] * d_plus[i]`. -/
def objTermsOf (num_goals : Nat) (obj_weights : List Weight) : List (Var × ℚ) :=
  (List.range' 1 num_goals).flatMap (fun i =>
    [(Var.dMinus i, (obj_weights.getD (i - 1) ⟨0, 0⟩).minus),
     (Var.dPlus i, (obj_weights.getD (i - 1) ⟨0, 0⟩).plus)])

/-- The objective construction (lines 21-25): accessing `obj_weights[i-1]`
raises `IndexError` when the weight list is shorter than `num_goals`. -/
def objectiveTerms (num_goals : Nat) (obj_weights : List Weight) :
    Except PyExc (List (Var × ℚ)) :=
  if num_goals ≤ obj_weights.length then .ok (objTermsOf num_goals obj_weights)
  else .error .indexError

/-- The variable declarations created by lines 17-19, in creation order:
`x_1 .. x_num_vars`, then `d_plus_1 .. d_plus_num_goals`, then
`d_minus_1 .. d_minus_num_goals`, all with `lowBound=0, cat='Continuous'`. -/
def varDecls (num_vars num_goals : Nat) : List VarDecl :=
  (List.range' 1 num_vars).map (fun j => ⟨Var.x j, 0, "Continuous"⟩)
    ++ (List.range' 1 num_goals).map (fun i => ⟨Var.dPlus i, 0, "Continuous"⟩)
    ++ (List.range' 1 num_goals).map (fun i => ⟨Var.dMinus i, 0, "Continuous"⟩)

/-- The model-building part of `solve_goal_programming` (lines 15-38): the
LP handed to `prob.solve()`.  Note that the `num_constraints` argument of
the source function plays no part here: the code iterates over the
`constraints` list itself. -/
def buildLP (num_vars num_goals : Nat) (obj_weights : List Weight)
    (goals : List Goal) (constraints : List HardConstraint) :
    Except PyExc LinearProgram := do
  let obj ← objectiveTerms num_goals obj_weights
  let gcs ← goalConstraints num_vars num_goals 1 goals
  let hcs ← hardConstraints num_vars constraints
  .ok ⟨"ProgramacionPorMetas", varDecls num_vars num_goals, obj, gcs ++ hcs⟩

/-- What the external LP solver reports back through PuLP after
`prob.solve()`: the status string `pulp.LpStatus[prob.status]` and each
variable's `.varValue` (`none` models Python's `None`). -/
structure SolverResult where
  status : String
  varValue : Var → Option ℚ

/-- Evaluation `pulp.value(prob.objective)` (line 46): the objective terms evaluated at
the solver's variable values; `none` when some needed value is missing. -/
def evalTerms (vv : Var → Option ℚ) : List (Var × ℚ) → Option ℚ
  | [] => some 0
  | (v, c) :: ts => do
    let a ← vv v
    let rest ← evalTerms vv ts
    some (c * a + rest)

/-- The function `solve_goal_programming` (lines 11-48), with the external solver passed
as an oracle.  Builds the LP, solves it, and returns
`(status, solution, deviations, obj_value)`; the `solution` and
`deviations` dictionaries are modelled as association lists in insertion
order (lines 43-45).  No exception is caught here: any build or solver
exception propagates to the caller. -/
def solve_goal_programming (solver : LinearProgram → Except PyExc SolverResult)
    (num_vars num_goals num_constraints : Nat) (obj_weights : List Weight)
    (goals : List Goal) (constraints : List HardConstraint) :
    Except PyExc
      (String × List (String × Option ℚ) × List (String × Option ℚ) × Option ℚ) := do
  let prob ← buildLP num_vars num_goals obj_weights goals constraints
  let res ← solver prob
  let status := res.status
  let solution := (List.range' 1 num_vars).map
    (fun j => ("x_" ++ toString j, res.varValue (Var.x j)))
  let deviations :=
    (List.range' 1 num_goals).map
      (fun i => ("d_" ++ toString i ++ "^-", res.varValue (Var.dMinus i)))
    ++ (List.range' 1 num_goals).map
      (fun i => ("d_" ++ toString i ++ "^+", res.varValue (Var.dPlus i)))
  let obj_value := evalTerms res.varValue prob.objective
  .ok (status, solution, deviations, obj_value)

/-- Classification of one goal in the results block (lines 204-211). -/
inductive GoalClass where
  | shortfall
  | excess
  | satisfied
deriving DecidableEq, Repr

/-- The per-goal classification of lines 206-211: `Shortfall` ("No cumplida,
faltaron ...") when `obj_weights[i-1]['minus'] > 0 and d_minus_val > 0.0001`;
otherwise `Excess` ("No cumplida, se excedió ...") when
`obj_weights[i-1]['plus'] > 0 and d_plus_val > 0.0001`; otherwise
`Satisfied` ("Cumplida satisfactoriamente"). -/
def classifyGoal (w : Weight) (dMinusVal dPlusVal : ℚ) : GoalClass :=
  if w.minus > 0 ∧ dMinusVal > 1 / 10000 then .shortfall
  else if w.plus > 0 ∧ dPlusVal > 1 / 10000 then .excess
  else .satisfied

/-- What the solve button handler (lines 185-224) renders: the exception
branch (line 224), the non-Optimal branch (line 222), or the optimal
report (lines 193-220). -/
inductive Rendered where
  | errorMsg (msg : String)
  | notOptimal (status : String)
  | optimalReport (solution deviations : List (String × Option ℚ))
      (objValue : Option ℚ)
deriving DecidableEq, Repr

/-- The message text Python's `str(e)` would yield, per exception kind. -/
def excMessage : PyExc → String
  | .indexError => "list index out of range"
  | .keyError => "KeyError"
  | .solverError m => m

/-- The solve button handler (lines 185-224): calls
`solve_goal_programming` inside `try`, and on an exception renders
"Ocurrió un error ..." (line 224); otherwise renders the optimal report
when `status == "Optimal"` and the failure status message otherwise. -/
def solveButtonHandler (solver : LinearProgram → Except PyExc SolverResult)
    (num_vars num_goals num_constraints : Nat) (obj_weights : List Weight)
    (goals : List Goal) (constraints : List HardConstraint) : Rendered :=
  match solve_goal_programming solver num_vars num_goals num_constraints
      obj_weights goals constraints with
  | .error e => .errorMsg ("Ocurrió un error al resolver el problema: " ++ excMessage e)
  | .ok (status, solution, deviations, obj_value) =>
    if status = "Optimal" then .optimalReport solution deviations obj_value
    else .notOptimal status

end GP

namespace GP

/-! ### Structural lemmas about the built LP -/

theorem goalConsOf_length (nv : Nat) (gs : List Goal) :
    ∀ i, (goalConsOf nv i gs).length = gs.length := by
  induction gs with
  | nil => intro i; rfl
  | cons g gs ih => intro i; simp [goalConsOf, ih]

theorem goalConsOf_getElem? (nv : Nat) (gs : List Goal) :
    ∀ i k, (goalConsOf nv i gs)[k]? = (gs[k]?).map (fun g => goalConOf nv (i + k) g) := by
  induction gs with
  | nil => intro i k; simp [goalConsOf]
  | cons g gs ih =>
    intro i k
    cases k with
    | zero => simp [goalConsOf]
    | succ k =>
      have hik : i + (k + 1) = (i + 1) + k := by omega
      simp only [goalConsOf, List.getElem?_cons_succ, ih (i + 1) k, hik]

theorem goalConstraints_eq_ok (nv ng : Nat) (gs : List Goal) :
    ∀ i, (∀ g ∈ gs, nv ≤ g.coeffs.length) → (∀ k, k < gs.length → i + k ≤ ng) →
      goalConstraints nv ng i gs = .ok (goalConsOf nv i gs) := by
  induction gs with
  | nil => intro i _ _; rfl
  | cons g gs ih =>
    intro i h1 h2
    have hc : nv ≤ g.coeffs.length := h1 g (by simp)
    have hi : i ≤ ng := by have := h2 0 (by simp); omega
    have hrest : goalConstraints nv ng (i + 1) gs = .ok (goalConsOf nv (i + 1) gs) := by
      refine ih (i + 1) (fun g hg => h1 g (by simp [hg])) (fun k hk => ?_)
      have := h2 (k + 1) (by simpa using Nat.succ_lt_succ hk)
      omega
    simp [goalConstraints, goalConstraint, hc, hi, hrest, goalConsOf, Bind.bind, Except.bind]

theorem goalConstraints_ok_elim (nv ng : Nat) (gs : List Goal) :
    ∀ i l, goalConstraints nv ng i gs = .ok l →
      l = goalConsOf nv i gs ∧ (∀ g ∈ gs, nv ≤ g.coeffs.length) ∧
        (∀ k, k < gs.length → i + k ≤ ng) := by
  induction gs with
  | nil =>
    intro i l h
    refine ⟨by simpa [goalConstraints] using h.symm, by simp, by simp⟩
  | cons g gs ih =>
    intro i l h
    simp only [goalConstraints, goalConstraint, Bind.bind, Except.bind] at h
    by_cases hc : nv ≤ g.coeffs.length
    · by_cases hi : i ≤ ng
      · simp only [hc, hi, if_true] at h
        cases hrest : goalConstraints nv ng (i + 1) gs with
        | error e => rw [hrest] at h; exact absurd h (by simp)
        | ok l' =>
          rw [hrest] at h
          obtain ⟨hl', hgs, hk⟩ := ih (i + 1) l' hrest
          simp only at h
          refine ⟨?_, ?_, ?_⟩
          · cases h; simp [goalConsOf, hl']
          · intro g' hg'
            rcases List.mem_cons.mp hg' with rfl | hg'
            · exact hc
            · exact hgs g' hg'
          · intro k hk'
            cases k with
            | zero => omega
            | succ k =>
              have := hk k (by simpa using Nat.lt_of_succ_lt_succ hk')
              omega
      · simp [hc, hi] at h
    · simp [hc] at h

theorem hardConstraints_eq_ok (nv : Nat) (cs : List HardConstraint)
    (h : ∀ c ∈ cs, nv ≤ c.coeffs.length) :
    hardConstraints nv cs = .ok (cs.map (hardConOf nv)) := by
  induction cs with
  | nil => rfl
  | cons c cs ih =>
    have hc : nv ≤ c.coeffs.length := h c (by simp)
    have hrest := ih (fun c' hc' => h c' (by simp [hc']))
    simp [hardConstraints, hardConstraint, hc, hrest, Bind.bind, Except.bind]

theorem hardConstraints_ok_elim (nv : Nat) (cs : List HardConstraint) :
    ∀ l, hardConstraints nv cs = .ok l →
      l = cs.map (hardConOf nv) ∧ ∀ c ∈ cs, nv ≤ c.coeffs.length := by
  induction cs with
  | nil => intro l h; refine ⟨by simpa [hardConstraints] using h.symm, by simp⟩
  | cons c cs ih =>
    intro l h
    simp only [hardConstraints, hardConstraint, Bind.bind, Except.bind] at h
    by_cases hc : nv ≤ c.coeffs.length
    · simp only [hc, if_true] at h
      cases hrest : hardConstraints nv cs with
      | error e => rw [hrest] at h; exact absurd h (by simp)
      | ok l' =>
        rw [hrest] at h
        obtain ⟨hl', hcs⟩ := ih l' hrest
        simp only at h
        refine ⟨by cases h; simp [hl'], ?_⟩
        intro c' hc'
        rcases List.mem_cons.mp hc' with rfl | hc'
        · exact hc
        · exact hcs c' hc'
    · simp [hc] at h

theorem buildLP_eq_ok (nv ng : Nat) (w : List Weight) (gs : List Goal)
    (cs : List HardConstraint)
    (hw : ng ≤ w.length) (hg : ∀ g ∈ gs, nv ≤ g.coeffs.length)
    (hn : ∀ k, k < gs.length → 1 + k ≤ ng)
    (hc : ∀ c ∈ cs, nv ≤ c.coeffs.length) :
    buildLP nv ng w gs cs =
      .ok ⟨"ProgramacionPorMetas", varDecls nv ng, objTermsOf ng w,
           goalConsOf nv 1 gs ++ cs.map (hardConOf nv)⟩ := by
  simp [buildLP, objectiveTerms, hw, goalConstraints_eq_ok nv ng gs 1 hg hn,
    hardConstraints_eq_ok nv cs hc, Bind.bind, Except.bind]

theorem buildLP_ok_elim (nv ng : Nat) (w : List Weight) (gs : List Goal)
    (cs : List HardConstraint) (lp : LinearProgram)
    (h : buildLP nv ng w gs cs = .ok lp) :
    lp = ⟨"ProgramacionPorMetas", varDecls nv ng, objTermsOf ng w,
          goalConsOf nv 1 gs ++ cs.map (hardConOf nv)⟩ ∧
      ng ≤ w.length ∧ (∀ g ∈ gs, nv ≤ g.coeffs.length) ∧
      (∀ k, k < gs.length → 1 + k ≤ ng) ∧ (∀ c ∈ cs, nv ≤ c.coeffs.length) := by
  simp only [buildLP, objectiveTerms, Bind.bind, Except.bind] at h
  by_cases hw : ng ≤ w.length
  · simp only [hw, if_true] at h
    cases hgs : goalConstraints nv ng 1 gs with
    | error e => rw [hgs] at h; exact absurd h (by simp)
    | ok gcs =>
      rw [hgs] at h
      obtain ⟨hgcs, hg, hn⟩ := goalConstraints_ok_elim nv ng gs 1 gcs hgs
      cases hcs : hardConstraints nv cs with
      | error e => rw [hcs] at h; exact absurd h (by simp)
      | ok hcl =>
        rw [hcs] at h
        obtain ⟨hhcl, hc⟩ := hardConstraints_ok_elim nv cs hcl hcs
        simp only at h
        cases h
        exact ⟨by simp [hgcs, hhcl], hw, hg, hn, hc⟩
  · simp [hw] at h

end GP

namespace GP

/-- A constraint mentions goal `m`'s deviation variables when some of its
terms is on `d_m^-` or `d_m^+`. -/
def mentionsDev (m : Nat) (c : Constraint) : Bool :=
  c.terms.any (fun t => t.1 == Var.dMinus m || t.1 == Var.dPlus m)

theorem xTerms_any_dev (m nv : Nat) (coeffs : List ℚ) :
    (xTerms nv coeffs).any
      (fun t => t.1 == Var.dMinus m || t.1 == Var.dPlus m) = false := by
  rw [List.any_eq_false]
  rintro t ht
  rw [xTerms, List.mem_map] at ht
  obtain ⟨j, _, rfl⟩ := ht
  simp

theorem mentionsDev_goalConOf (m nv i : Nat) (g : Goal) :
    mentionsDev m (goalConOf nv i g) = (m == i) := by
  simp only [mentionsDev, goalConOf, List.any_append, xTerms_any_dev,
    Bool.false_or, List.any_cons, List.any_nil, Bool.or_false]
  by_cases h : m = i
  · subst h; simp
  · have h1 : (Var.dMinus i == Var.dMinus m) = false := by
      simpa using fun hh : i = m => h hh.symm
    have h2 : (Var.dMinus i == Var.dPlus m) = false := by simp
    have h3 : (Var.dPlus i == Var.dMinus m) = false := by simp
    have h4 : (Var.dPlus i == Var.dPlus m) = false := by
      simpa using fun hh : i = m => h hh.symm
    have h5 : (m == i) = false := by simpa using h
    simp [h1, h2, h3, h4, h5]

theorem mentionsDev_hardConOf (m nv : Nat) (c : HardConstraint) :
    mentionsDev m (hardConOf nv c) = false := by
  simpa only [mentionsDev, hardConOf] using xTerms_any_dev m nv c.coeffs

theorem countP_mentionsDev_goalConsOf (m nv : Nat) (gs : List Goal) :
    ∀ i, (goalConsOf nv i gs).countP (mentionsDev m) =
      if i ≤ m ∧ m < i + gs.length then 1 else 0 := by
  induction gs with
  | nil =>
    intro i
    simp only [goalConsOf, List.length_nil, List.countP_nil]
    rw [if_neg (by omega)]
  | cons g gs ih =>
    intro i
    rw [goalConsOf, List.countP_cons, ih (i + 1), mentionsDev_goalConOf]
    by_cases h : m = i
    · subst h
      have h1 : ¬ (m + 1 ≤ m ∧ m < m + 1 + gs.length) := by omega
      simp [h1]
    · have hb : (m == i) = false := by simpa using h
      rw [hb]
      by_cases h2 : i + 1 ≤ m ∧ m < i + 1 + gs.length
      · have h3 : i ≤ m ∧ m < i + (gs.length + 1) := by omega
        simp [h2, h3]
      · have h3 : ¬ (i ≤ m ∧ m < i + (gs.length + 1)) := by omega
        simp [h2, h3]

theorem countP_mentionsDev_hardCons (m nv : Nat) (cs : List HardConstraint) :
    (cs.map (hardConOf nv)).countP (mentionsDev m) = 0 := by
  induction cs with
  | nil => simp
  | cons c cs ih => simp [List.countP_cons, mentionsDev_hardConOf, ih]

theorem objTermsOf_length (ng : Nat) (w : List Weight) :
    (objTermsOf ng w).length = 2 * ng := by
  induction ng with
  | zero => rfl
  | succ n ih =>
    have hr := @List.range'_concat 1 1 n
    simp only [objTermsOf] at ih ⊢
    rw [hr, List.flatMap_append, List.length_append, ih]
    simp only [List.flatMap_cons, List.flatMap_nil, List.append_nil,
      List.length_cons, List.length_nil]
    omega

theorem objTermsOf_mem (ng : Nat) (w : List Weight) (t : Var × ℚ) :
    t ∈ objTermsOf ng w ↔
      ∃ i, 1 ≤ i ∧ i ≤ ng ∧
        (t = (Var.dMinus i, (w.getD (i - 1) ⟨0, 0⟩).minus) ∨
         t = (Var.dPlus i, (w.getD (i - 1) ⟨0, 0⟩).plus)) := by
  simp only [objTermsOf, List.mem_flatMap, List.mem_range']
  constructor
  · rintro ⟨i, ⟨k, hk, rfl⟩, hmem⟩
    refine ⟨1 + 1 * k, by omega, by omega, ?_⟩
    simpa using hmem
  · rintro ⟨i, h1, h2, ht⟩
    exact ⟨i, ⟨i - 1, by omega, by omega⟩, by simpa using ht⟩

theorem objTermsOf_contains (ng : Nat) (w : List Weight) (i : Nat)
    (h1 : 1 ≤ i) (h2 : i ≤ ng) :
    (Var.dMinus i, (w.getD (i - 1) ⟨0, 0⟩).minus) ∈ objTermsOf ng w ∧
      (Var.dPlus i, (w.getD (i - 1) ⟨0, 0⟩).plus) ∈ objTermsOf ng w := by
  constructor
  · exact (objTermsOf_mem ng w _).mpr ⟨i, h1, h2, Or.inl rfl⟩
  · exact (objTermsOf_mem ng w _).mpr ⟨i, h1, h2, Or.inr rfl⟩

end GP

namespace GP

/-- The advertising-agency example data preloaded by the UI
(`Ej. 8.2-1`, lines 72-79 of `src/app.py`). -/
def pubWeights : List Weight := [⟨2, 0⟩, ⟨0, 1⟩]

/-- Goals of the advertising-agency example (line 77). -/
def pubGoals : List Goal :=
  [⟨"Exposición", [4, 8], 45⟩, ⟨"Presupuesto", [8, 24], 100⟩]

/-- Hard constraints of the advertising-agency example (line 79). -/
def pubCons : List HardConstraint :=
  [⟨"Límite Radio", [1, 0], "<=", 6⟩, ⟨"Límite Personal", [1, 2], "<=", 10⟩]

/-- Claim C3: for every goal of an Optimal solution the classification is
Shortfall when `w⁻ > 0` and `d⁻` exceeds the tolerance `1e-4`; otherwise
Excess when `w⁺ > 0` and `d⁺` exceeds the tolerance; otherwise Satisfied;
in particular a goal with nonzero `d⁺` but `w⁺ = 0` (and penalized `d⁻`
within tolerance) is Satisfied, never Excess. -/
theorem claim_C3_classification (w : Weight) (dm dp : ℚ) :
    (classifyGoal w dm dp = .shortfall ↔ w.minus > 0 ∧ dm > 1 / 10000) ∧
    (classifyGoal w dm dp = .excess ↔
      ¬(w.minus > 0 ∧ dm > 1 / 10000) ∧ w.plus > 0 ∧ dp > 1 / 10000) ∧
    (classifyGoal w dm dp = .satisfied ↔
      ¬(w.minus > 0 ∧ dm > 1 / 10000) ∧ ¬(w.plus > 0 ∧ dp > 1 / 10000)) ∧
    (w.plus = 0 → ¬(w.minus > 0 ∧ dm > 1 / 10000) →
      classifyGoal w dm dp = .satisfied) := by
  by_cases h1 : w.minus > 0 ∧ dm > 1 / 10000
  · have e : classifyGoal w dm dp = .shortfall := by
      unfold classifyGoal; rw [if_pos h1]
    refine ⟨iff_of_true e h1,
      iff_of_false (by simp [e]) (fun hh => hh.1 h1),
      iff_of_false (by simp [e]) (fun hh => hh.1 h1),
      fun _ hno => absurd h1 hno⟩
  · by_cases h2 : w.plus > 0 ∧ dp > 1 / 10000
    · have e : classifyGoal w dm dp = .excess := by
        unfold classifyGoal; rw [if_neg h1, if_pos h2]
      refine ⟨iff_of_false (by simp [e]) (fun hh => h1 hh),
        iff_of_true e ⟨h1, h2⟩,
        iff_of_false (by simp [e]) (fun hh => hh.2 h2),
        fun hz _ => absurd (lt_of_lt_of_eq h2.1 hz) (lt_irrefl 0)⟩
    · have e : classifyGoal w dm dp = .satisfied := by
        unfold classifyGoal; rw [if_neg h1, if_neg h2]
      exact ⟨iff_of_false (by simp [e]) (fun hh => h1 hh),
        iff_of_false (by simp [e]) (fun hh => h2 hh.2),
        iff_of_true e ⟨h1, h2⟩,
        fun _ _ => e⟩

/-- Witness for C3, scenario 4 of the spec: weight pair `(1, 0)`, `d⁻ = 0`,
`d⁺ = 5` (nonzero, unpenalized) classifies as Satisfied. -/
theorem claim_C3_witness : classifyGoal ⟨1, 0⟩ 0 5 = .satisfied :=
  (claim_C3_classification ⟨1, 0⟩ 0 5).2.2.2 rfl (by norm_num)

/-- Claim C10: `num_constraints` has no effect: two calls differing only in
`num_constraints` return the same status, solution mapping, deviation
mapping and objective value (the function iterates over the `constraints`
list directly), and the rendered report is likewise identical. -/
theorem claim_C10_num_constraints_unused
    (solver : LinearProgram → Except PyExc SolverResult)
    (nv ng nc1 nc2 : Nat) (w : List Weight) (gs : List Goal)
    (cs : List HardConstraint) :
    solve_goal_programming solver nv ng nc1 w gs cs =
      solve_goal_programming solver nv ng nc2 w gs cs ∧
    solveButtonHandler solver nv ng nc1 w gs cs =
      solveButtonHandler solver nv ng nc2 w gs cs :=
  ⟨rfl, rfl⟩

/-- Claim C9: a hard constraint whose operator string is neither `"<="` nor
`">="` — `"=="` but also any malformed string — is added to the LP as an
equality constraint, and no error is raised for the unrecognised operator. -/
theorem claim_C9_unknown_op (nv : Nat) (c : HardConstraint)
    (h1 : c.type ≠ "<=") (h2 : c.type ≠ ">=") :
    (hardConOf nv c).rel = Rel.eq ∧
    (nv ≤ c.coeffs.length → hardConstraint nv c = .ok (hardConOf nv c)) ∧
    (∀ ng w gs pre post lp, buildLP nv ng w gs (pre ++ c :: post) = .ok lp →
      hardConOf nv c ∈ lp.constraints) := by
  refine ⟨by simp [hardConOf, h1, h2], fun h => by simp [hardConstraint, h], ?_⟩
  intro ng w gs pre post lp h
  obtain ⟨hlp, -, -, -, -⟩ := buildLP_ok_elim nv ng w gs (pre ++ c :: post) lp h
  subst hlp
  refine List.mem_append.mpr (Or.inr ?_)
  rw [List.mem_map]
  exact ⟨c, by simp, rfl⟩

/-- Witness for C9 at the concrete operator string `"=="` on a 1-variable
constraint `x₁ == 3`. -/
theorem claim_C9_witness :
    (hardConOf 1 ⟨"R", [1], "==", 3⟩).rel = Rel.eq ∧
    hardConstraint 1 ⟨"R", [1], "==", 3⟩ = .ok (hardConOf 1 ⟨"R", [1], "==", 3⟩) :=
  ⟨(claim_C9_unknown_op 1 ⟨"R", [1], "==", 3⟩ (by decide) (by decide)).1,
   (claim_C9_unknown_op 1 ⟨"R", [1], "==", 3⟩ (by decide) (by decide)).2.1 (by decide)⟩

/-- Counterexample to C4: at scenario 3's exact input — a goal with a
3-element coefficient vector in a 2-variable model — model building
succeeds with no error of any kind; no `DimensionMismatch` is raised. -/
theorem claim_C4_counterexample :
    ∃ lp, buildLP 2 1 [⟨1, 1⟩] [⟨"Meta 1", [1, 2, 3], 5⟩] [] = .ok lp :=
  ⟨_, rfl⟩

/-- Helper for C4: `xTerms` only reads the first `num_vars` coefficients. -/
theorem xTerms_take (nv : Nat) (coeffs : List ℚ) :
    xTerms nv (coeffs.take nv) = xTerms nv coeffs := by
  rw [xTerms, xTerms]
  refine List.map_congr_left ?_
  intro j hj
  rw [List.mem_range'] at hj
  obtain ⟨k, hk, rfl⟩ := hj
  have hlt : 1 + 1 * k - 1 < nv := by omega
  simp only [List.getD_eq_getElem?_getD, List.getElem?_take_of_lt hlt]

/-- Claim C4 amended: model building performs no dimension validation.
A coefficient vector longer than `num_vars` is silently truncated (only the
first `num_vars` entries are used: scenario 3's input builds successfully,
its goal equality using only coefficients 1 and 2); a vector shorter than
`num_vars` raises `IndexError` during construction; a weight list shorter
than the number of goals likewise raises `IndexError`. -/
theorem claim_C4_amended :
    (∀ nv i (g : Goal),
      goalConOf nv i g = goalConOf nv i ⟨g.name, g.coeffs.take nv, g.rhs⟩) ∧
    (∃ lp, buildLP 2 1 [⟨1, 1⟩] [⟨"Meta 1", [1, 2, 3], 5⟩] [] = .ok lp ∧
      lp.constraints[0]? = some ⟨"Meta_Meta 1",
        [(Var.x 1, 1), (Var.x 2, 2), (Var.dMinus 1, 1), (Var.dPlus 1, -1)],
        Rel.eq, 5⟩) ∧
    buildLP 2 1 [⟨1, 1⟩] [⟨"Meta 1", [1], 5⟩] [] = .error .indexError ∧
    buildLP 2 2 [⟨1, 1⟩] [⟨"A", [1, 1], 1⟩, ⟨"B", [1, 1], 2⟩] [] =
      .error .indexError := by
  refine ⟨?_, ⟨_, rfl, rfl⟩, rfl, rfl⟩
  intro nv i g
  rw [goalConOf, goalConOf]
  simp only [xTerms_take]

/-- Counterexample to C7: a negative weight component `w⁻ = -1` is accepted
without any error; the model builds and the raw negative weight appears in
the objective. -/
theorem claim_C7_counterexample :
    ∃ lp, buildLP 1 1 [⟨-1, 0⟩] [⟨"Meta 1", [1], 5⟩] [] = .ok lp ∧
      lp.objective = [(Var.dMinus 1, -1), (Var.dPlus 1, 0)] :=
  ⟨_, rfl, rfl⟩

/-- Claim C7 amended: no `InvalidWeight` check exists.  Whenever the
dimensions line up, model building succeeds for arbitrary weights —
negative components included — and the supplied weights appear unchanged
in the objective. -/
theorem claim_C7_amended (nv ng : Nat) (w : List Weight) (gs : List Goal)
    (cs : List HardConstraint)
    (hw : ng ≤ w.length) (hg : ∀ g ∈ gs, nv ≤ g.coeffs.length)
    (hn : ∀ k, k < gs.length → 1 + k ≤ ng)
    (hc : ∀ c ∈ cs, nv ≤ c.coeffs.length) :
    ∃ lp, buildLP nv ng w gs cs = .ok lp ∧ lp.objective = objTermsOf ng w :=
  ⟨_, buildLP_eq_ok nv ng w gs cs hw hg hn hc, rfl⟩

/-- Witness for C7 amended at the negative weight `w⁻ = -1`. -/
theorem claim_C7_witness :
    ∃ lp, buildLP 1 1 [⟨-1, 0⟩] [⟨"Meta 1", [1], 5⟩] [] = .ok lp ∧
      lp.objective = objTermsOf 1 [⟨-1, 0⟩] :=
  claim_C7_amended 1 1 [⟨-1, 0⟩] [⟨"Meta 1", [1], 5⟩] []
    (by decide) (by decide)
    (by intro k hk; simp only [List.length_cons, List.length_nil] at hk; omega)
    (by decide)

end GP

namespace GP

/-- Counterexample to C5: with a solver that raises an exception during the
solve call, `solve_goal_programming` returns that exception to its caller —
the exception is propagated, not caught inside the core solve operation,
and no `Undefined` status is produced. -/
theorem claim_C5_counterexample :
    solve_goal_programming (fun _ => .error (.solverError "boom")) 1 1 0
      [⟨1, 1⟩] [⟨"Meta 1", [1], 5⟩] [] = .error (.solverError "boom") :=
  rfl

/-- Claim C5 amended: an exception raised by the LP solver propagates out of
`solve_goal_programming` uncaught; it is the UI-level `try/except` around
the solve button that catches it and renders a diagnostic error message
("Ocurrió un error ..."), so the user never sees a crash — but no
`Undefined` status is returned. -/
theorem claim_C5_amended (solver : LinearProgram → Except PyExc SolverResult)
    (nv ng nc : Nat) (w : List Weight) (gs : List Goal)
    (cs : List HardConstraint) (lp : LinearProgram) (e : PyExc)
    (hb : buildLP nv ng w gs cs = .ok lp) (hs : solver lp = .error e) :
    solve_goal_programming solver nv ng nc w gs cs = .error e ∧
    solveButtonHandler solver nv ng nc w gs cs =
      .errorMsg ("Ocurrió un error al resolver el problema: " ++ excMessage e) := by
  have h1 : solve_goal_programming solver nv ng nc w gs cs = .error e := by
    simp [solve_goal_programming, hb, hs, Bind.bind, Except.bind]
  exact ⟨h1, by simp [solveButtonHandler, h1]⟩

/-- Witness for C5 amended at a concrete model and a solver raising the
exception message "fallo". -/
theorem claim_C5_witness :
    solve_goal_programming (fun _ => .error (.solverError "fallo")) 1 1 0
      [⟨1, 1⟩] [⟨"Meta 1", [1], 5⟩] [] = .error (.solverError "fallo") ∧
    solveButtonHandler (fun _ => .error (.solverError "fallo")) 1 1 0
      [⟨1, 1⟩] [⟨"Meta 1", [1], 5⟩] [] =
      .errorMsg ("Ocurrió un error al resolver el problema: "
        ++ excMessage (.solverError "fallo")) :=
  claim_C5_amended (fun _ => .error (.solverError "fallo")) 1 1 0
    [⟨1, 1⟩] [⟨"Meta 1", [1], 5⟩] [] _ _ rfl rfl

/-- Counterexample to C6: at scenario 2's input — one variable, hard
constraints `x₁ ≤ 1` and `x₁ ≥ 5` — with the solver reporting Infeasible,
`solve_goal_programming` still returns a solution mapping containing a
value for `x_1` (lines 43-45 run unconditionally), contradicting "no
variable values are produced". -/
theorem claim_C6_counterexample :
    ∃ r, solve_goal_programming (fun _ => .ok ⟨"Infeasible", fun _ => some 0⟩) 1 1 2
      [⟨1, 1⟩] [⟨"Meta 1", [1], 1⟩]
      [⟨"R1", [1], "<=", 1⟩, ⟨"R2", [1], ">=", 5⟩] = .ok r ∧
      r.1 = "Infeasible" ∧ r.2.1 = [("x_1", some 0)] ∧
      r.2.2.1 = [("d_1^-", some 0), ("d_1^+", some 0)] :=
  ⟨_, rfl, rfl, rfl, rfl⟩

/-- Claim C6 amended: when the solver reports Infeasible,
`solve_goal_programming` returns status `Infeasible` together with the
solution and deviation mappings built from the solver's variable values
(one entry per variable, values possibly `None`); only the UI layer
withholds variable values, rendering nothing but the failure status. -/
theorem claim_C6_amended (solver : LinearProgram → Except PyExc SolverResult)
    (nv ng nc : Nat) (w : List Weight) (gs : List Goal)
    (cs : List HardConstraint) (lp : LinearProgram) (vv : Var → Option ℚ)
    (hb : buildLP nv ng w gs cs = .ok lp)
    (hs : solver lp = .ok ⟨"Infeasible", vv⟩) :
    solve_goal_programming solver nv ng nc w gs cs =
      .ok ("Infeasible",
        (List.range' 1 nv).map (fun j => ("x_" ++ toString j, vv (Var.x j))),
        (List.range' 1 ng).map
          (fun i => ("d_" ++ toString i ++ "^-", vv (Var.dMinus i)))
          ++ (List.range' 1 ng).map
            (fun i => ("d_" ++ toString i ++ "^+", vv (Var.dPlus i))),
        evalTerms vv lp.objective) ∧
    solveButtonHandler solver nv ng nc w gs cs = .notOptimal "Infeasible" := by
  have h1 : solve_goal_programming solver nv ng nc w gs cs =
      .ok ("Infeasible",
        (List.range' 1 nv).map (fun j => ("x_" ++ toString j, vv (Var.x j))),
        (List.range' 1 ng).map
          (fun i => ("d_" ++ toString i ++ "^-", vv (Var.dMinus i)))
          ++ (List.range' 1 ng).map
            (fun i => ("d_" ++ toString i ++ "^+", vv (Var.dPlus i))),
        evalTerms vv lp.objective) := by
    simp [solve_goal_programming, hb, hs, Bind.bind, Except.bind]
  refine ⟨h1, ?_⟩
  rw [solveButtonHandler, h1]
  simp

/-- Witness for C6 amended at scenario 2's concrete input: the handler shows
only the Infeasible status. -/
theorem claim_C6_witness :
    solveButtonHandler (fun _ => .ok ⟨"Infeasible", fun _ => some 0⟩) 1 1 2
      [⟨1, 1⟩] [⟨"Meta 1", [1], 1⟩]
      [⟨"R1", [1], "<=", 1⟩, ⟨"R2", [1], ">=", 5⟩] =
      .notOptimal "Infeasible" :=
  (claim_C6_amended (fun _ => .ok ⟨"Infeasible", fun _ => some 0⟩) 1 1 2
    [⟨1, 1⟩] [⟨"Meta 1", [1], 1⟩]
    [⟨"R1", [1], "<=", 1⟩, ⟨"R2", [1], ">=", 5⟩] _ _ rfl rfl).2

end GP

namespace GP

/-- Claim C1: for every goal `i` of the input list (0-based offset `i`,
deviation index `i+1`), the built LP contains — at position `i` — the
equality constraint `Σ_j coeffs[i][j]·x_j + d⁻_(i+1) - d⁺_(i+1) = rhs_i`;
exactly one constraint of the LP mentions goal `i`'s deviation variables;
and both deviation variables are declared non-negative (`lowBound 0`)
continuous variables. -/
theorem claim_C1_goal_equalities (nv ng : Nat) (w : List Weight)
    (gs : List Goal) (cs : List HardConstraint) (lp : LinearProgram) (i : Nat)
    (h : buildLP nv ng w gs cs = .ok lp) (hi : i < gs.length) :
    lp.constraints[i]? = some
      ⟨"Meta_" ++ (gs.getD i ⟨"", [], 0⟩).name,
       (List.range' 1 nv).map
         (fun j => (Var.x j, (gs.getD i ⟨"", [], 0⟩).coeffs.getD (j - 1) 0))
         ++ [(Var.dMinus (i + 1), 1), (Var.dPlus (i + 1), -1)],
       Rel.eq, (gs.getD i ⟨"", [], 0⟩).rhs⟩ ∧
    lp.constraints.countP (mentionsDev (i + 1)) = 1 ∧
    (⟨Var.dMinus (i + 1), 0, "Continuous"⟩ : VarDecl) ∈ lp.vars ∧
    (⟨Var.dPlus (i + 1), 0, "Continuous"⟩ : VarDecl) ∈ lp.vars := by
  obtain ⟨hlp, hw, hg, hn, hc⟩ := buildLP_ok_elim nv ng w gs cs lp h
  subst hlp
  have hlen : (goalConsOf nv 1 gs).length = gs.length := goalConsOf_length nv gs 1
  have hng : 1 + i ≤ ng := hn i hi
  have hgd : gs.getD i ⟨"", [], 0⟩ = gs[i] := by
    rw [List.getD_eq_getElem?_getD, List.getElem?_eq_getElem hi, Option.getD_some]
  refine ⟨?_, ?_, ?_, ?_⟩
  · show (goalConsOf nv 1 gs ++ cs.map (hardConOf nv))[i]? = _
    rw [List.getElem?_append_left (by omega), goalConsOf_getElem? nv gs 1 i,
      List.getElem?_eq_getElem hi]
    simp only [Option.map_some', hgd]
    rw [show 1 + i = i + 1 by omega]
    rfl
  · show (goalConsOf nv 1 gs ++ cs.map (hardConOf nv)).countP _ = 1
    rw [List.countP_append, countP_mentionsDev_goalConsOf (i + 1) nv gs 1,
      countP_mentionsDev_hardCons (i + 1) nv cs,
      if_pos (by constructor <;> omega)]
  · show _ ∈ varDecls nv ng
    refine List.mem_append.mpr (Or.inr ?_)
    rw [List.mem_map]
    exact ⟨i + 1, by rw [List.mem_range']; exact ⟨i, by omega, by omega⟩, rfl⟩
  · show _ ∈ varDecls nv ng
    refine List.mem_append.mpr (Or.inl (List.mem_append.mpr (Or.inr ?_)))
    rw [List.mem_map]
    exact ⟨i + 1, by rw [List.mem_range']; exact ⟨i, by omega, by omega⟩, rfl⟩

/-- Witness for C1 at the advertising-agency example, goal offset 0: its
deviation pair appears in exactly one constraint of the built LP. -/
theorem claim_C1_witness :
    ∃ lp, buildLP 2 2 pubWeights pubGoals pubCons = .ok lp ∧
      lp.constraints.countP (mentionsDev 1) = 1 :=
  ⟨_, rfl,
    (claim_C1_goal_equalities 2 2 pubWeights pubGoals pubCons _ 0 rfl
      (by decide)).2.1⟩

/-- Claim C2: the objective of the built LP is exactly
`Σ_i (w⁻_i·d⁻_i + w⁺_i·d⁺_i)` over the goals' deviation variables — one
`d⁻` term and one `d⁺` term per goal carrying the raw weights, nothing
else, and no decision variable `x_j` occurs in it. -/
theorem claim_C2_objective (nv ng : Nat) (w : List Weight) (gs : List Goal)
    (cs : List HardConstraint) (lp : LinearProgram)
    (h : buildLP nv ng w gs cs = .ok lp) :
    lp.objective.length = 2 * ng ∧
    (∀ i, 1 ≤ i → i ≤ ng →
      (Var.dMinus i, (w.getD (i - 1) ⟨0, 0⟩).minus) ∈ lp.objective ∧
      (Var.dPlus i, (w.getD (i - 1) ⟨0, 0⟩).plus) ∈ lp.objective) ∧
    (∀ t ∈ lp.objective, ∃ i, 1 ≤ i ∧ i ≤ ng ∧
      (t = (Var.dMinus i, (w.getD (i - 1) ⟨0, 0⟩).minus) ∨
       t = (Var.dPlus i, (w.getD (i - 1) ⟨0, 0⟩).plus))) ∧
    (∀ t ∈ lp.objective, ∀ j, t.1 ≠ Var.x j) := by
  obtain ⟨hlp, -, -, -, -⟩ := buildLP_ok_elim nv ng w gs cs lp h
  subst hlp
  refine ⟨objTermsOf_length ng w,
    fun i h1 h2 => objTermsOf_contains ng w i h1 h2,
    fun t ht => (objTermsOf_mem ng w t).mp ht, ?_⟩
  intro t ht j
  obtain ⟨i, -, -, hcase⟩ := (objTermsOf_mem ng w t).mp ht
  rcases hcase with rfl | rfl <;> simp

/-- Witness for C2 at the advertising-agency example: the objective has four
terms and contains the weighted `d⁻₁` term with its raw weight 2. -/
theorem claim_C2_witness :
    ∃ lp, buildLP 2 2 pubWeights pubGoals pubCons = .ok lp ∧
      lp.objective.length = 2 * 2 ∧
      (Var.dMinus 1, (pubWeights.getD 0 ⟨0, 0⟩).minus) ∈ lp.objective :=
  ⟨_, rfl,
    (claim_C2_objective 2 2 pubWeights pubGoals pubCons _ rfl).1,
    ((claim_C2_objective 2 2 pubWeights pubGoals pubCons _ rfl).2.1 1
      (by decide) (by decide)).1⟩

/-- Claim C8: model construction is deterministic — identical inputs yield
an identical LP — with the variables declared in the fixed order
`x`-block, `d⁺`-block, `d⁻`-block, and the constraint list consisting of
all goal equalities first, in input order, followed by all hard
constraints in input order. -/
theorem claim_C8_determinism_ordering (nv ng : Nat) (w : List Weight)
    (gs : List Goal) (cs : List HardConstraint) (lp : LinearProgram)
    (h : buildLP nv ng w gs cs = .ok lp) :
    (∀ lp2, buildLP nv ng w gs cs = .ok lp2 → lp2 = lp) ∧
    lp.vars =
      (List.range' 1 nv).map (fun j => ⟨Var.x j, 0, "Continuous"⟩)
        ++ (List.range' 1 ng).map (fun i => ⟨Var.dPlus i, 0, "Continuous"⟩)
        ++ (List.range' 1 ng).map (fun i => ⟨Var.dMinus i, 0, "Continuous"⟩) ∧
    lp.constraints = goalConsOf nv 1 gs ++ cs.map (hardConOf nv) ∧
    (∀ k, k < gs.length →
      lp.constraints[k]? = (gs[k]?).map (fun g => goalConOf nv (k + 1) g)) ∧
    (∀ k, k < cs.length →
      lp.constraints[gs.length + k]? = (cs[k]?).map (hardConOf nv)) := by
  obtain ⟨hlp, -, -, -, -⟩ := buildLP_ok_elim nv ng w gs cs lp h
  have hdet : ∀ lp2, buildLP nv ng w gs cs = .ok lp2 → lp2 = lp := by
    intro lp2 h2
    rw [h] at h2
    exact (Except.ok.inj h2).symm
  subst hlp
  have hlen : (goalConsOf nv 1 gs).length = gs.length := goalConsOf_length nv gs 1
  refine ⟨hdet, rfl, rfl, ?_, ?_⟩
  · intro k hk
    show (goalConsOf nv 1 gs ++ cs.map (hardConOf nv))[k]? = _
    rw [List.getElem?_append_left (by omega), goalConsOf_getElem? nv gs 1 k,
      show 1 + k = k + 1 by omega]
  · intro k hk
    show (goalConsOf nv 1 gs ++ cs.map (hardConOf nv))[gs.length + k]? = _
    rw [List.getElem?_append_right (by omega), List.getElem?_map,
      show gs.length + k - (goalConsOf nv 1 gs).length = k by omega]

/-- Witness for C8 at the advertising-agency example: the constraints are
the two goal equalities followed by the two hard constraints. -/
theorem claim_C8_witness :
    ∃ lp, buildLP 2 2 pubWeights pubGoals pubCons = .ok lp ∧
      lp.constraints = goalConsOf 2 1 pubGoals ++ pubCons.map (hardConOf 2) :=
  ⟨_, rfl,
    (claim_C8_determinism_ordering 2 2 pubWeights pubGoals pubCons _ rfl).2.2.1⟩

end GP
